import Mathlib

/-!
Verification development for `posthog/api/property_definition.py`.

The module under study exposes a list/retrieve/update REST surface over the
`posthog_propertydefinition` table.  The list operation assembles one raw SQL
query from optional request parameters (`properties`, `is_numerical`,
`event_names`, `is_event_property`, `excluded_properties`, `search`), always
excluding a fixed hidden-property set, computing a derived per-row boolean
`is_event_property` via a correlated subquery, and ordering the result
deterministically.  We embed both the generated query text and the query's
execution semantics over an explicit database value, and prove the stated
properties about them.
-/

namespace Posthog

/-- Exceptions that can escape the embedded operations.  `jsonDecodeError` is
what Python's `json.loads` raises on malformed input; `doesNotExist` and
`multipleObjectsReturned` are what Django's `Model.objects.get` raises;
`programmingError` is psycopg2's `ProgrammingError`, raised at query execution
when a bound parameter value has no adapter; `enterpriseFeatureException` is
posthog's `EnterpriseFeatureException`.  `parseError` is DRF's
`rest_framework.exceptions.ParseError`; it appears in the taxonomy because the
specification names it, but no code path in this module constructs it. -/
inductive Err where
  | jsonDecodeError
  | parseError
  | doesNotExist
  | multipleObjectsReturned
  | programmingError
  | enterpriseFeatureException
  deriving DecidableEq, Repr

/-- Model of the REST framework's exception classification: DRF surfaces
`APIException` subclasses (`ParseError`, posthog's `EnterpriseFeatureException`)
as client (4xx-equivalent) responses, while other exceptions
(`json.JSONDecodeError`, Django's `DoesNotExist`) propagate as server errors. -/
def Err.isAPIException : Err → Bool
  | .parseError => true
  | .enterpriseFeatureException => true
  | .jsonDecodeError => false
  | .doesNotExist => false
  | .multipleObjectsReturned => false
  | .programmingError => false

/-- Modelled from the spec: `GROUP_TYPES_LIMIT` comes from `posthog.constants`,
which is not part of the sources under study; the spec fixes no numeric value,
only that `$group_0 .. $group_{GROUP_TYPES_LIMIT-1}` are generated.  The
cardinality facts below are proved parametrically in the limit; this constant
is a representative value used to instantiate the query pipeline. -/
def GROUP_TYPES_LIMIT : Nat := 5

/-- The hidden-property list of the source, parametrised by the group-types
limit: the seven literal names plus one generated name per group index. -/
def hiddenPropertyList (groupTypesLimit : Nat) : List String :=
  ["distinct_id", "$set", "$set_once", "$groups", "$group_type", "$group_key", "$group_set"]
    ++ (List.range groupTypesLimit).map (fun i => "$group_" ++ Nat.repr i)

/-- `HIDDEN_PROPERTY_DEFINITIONS` from the source (a Python `set`; we keep the
underlying list, all uses below are membership or distinct-count). -/
def HIDDEN_PROPERTY_DEFINITIONS : List String :=
  hiddenPropertyList GROUP_TYPES_LIMIT

/-! ### Database model -/

/-- One row of the `posthog_propertydefinition` table. -/
structure PropertyDefinitionRow where
  id : Nat
  team_id : Nat
  name : String
  is_numerical : Bool
  query_usage_30_day : Option Int
  property_type : Option String
  deriving DecidableEq, Repr

/-- One row of the `posthog_eventproperty` table. -/
structure EventPropertyRow where
  team_id : Nat
  event : String
  property : String
  deriving DecidableEq, Repr

/-- The tables the query under study reads. -/
structure Database where
  posthog_propertydefinition : List PropertyDefinitionRow
  posthog_eventproperty : List EventPropertyRow
  deriving DecidableEq, Repr

/-- A row of the list query's result set: the property-definition columns plus
the computed `is_event_property` column (a nullable boolean). -/
structure ResultRow where
  pd : PropertyDefinitionRow
  is_event_property : Option Bool
  deriving DecidableEq, Repr

/-! ### Request model and Python helpers -/

/-- The GET parameters read by the viewset.  `none` models an absent key. -/
structure RequestGET where
  properties : Option String := none
  is_numerical : Option String := none
  event_names : Option String := none
  is_event_property : Option String := none
  excluded_properties : Option String := none
  search : Option String := none
  deriving DecidableEq, Repr

/-- Python truthiness of `request.GET.get(key, None)` results: both an absent
key and an empty-string value are falsy. -/
def getTruthy : Option String → Option String
  | none => none
  | some s => if s = "" then none else some s

/-- Skip JSON whitespace. -/
def skipWs : List Char → List Char
  | [] => []
  | c :: cs => if c = ' ' || c = '\t' || c = '\n' || c = '\r' then skipWs cs else c :: cs

/-- Parse the remainder of a JSON string literal (the opening quote already
consumed), returning the decoded string and the rest of the input. -/
def parseStringRest : List Char → Option (String × List Char)
  | [] => none
  | c :: cs =>
    if c = '"' then some ("", cs)
    else if c = '\\' then
      match cs with
      | [] => none
      | e :: cs2 =>
        if e = '"' || e = '\\' || e = '/' then
          match parseStringRest cs2 with
          | none => none
          | some (s, rest) => some (String.mk (e :: s.data), rest)
        else none
    else
      match parseStringRest cs with
      | none => none
      | some (s, rest) => some (String.mk (c :: s.data), rest)

/-- Parse one or more comma-separated JSON string literals followed by the
closing bracket.  Fuel-indexed; the callers pass enough fuel. -/
def parseElemsAux : Nat → List Char → Option (List String × List Char)
  | 0, _ => none
  | fuel + 1, cs =>
    match skipWs cs with
    | '"' :: cs1 =>
      match parseStringRest cs1 with
      | none => none
      | some (s, cs2) =>
        match skipWs cs2 with
        | ',' :: cs3 =>
          match parseElemsAux fuel cs3 with
          | none => none
          | some (l, rest) => some (s :: l, rest)
        | ']' :: cs3 => some ([s], cs3)
        | _ => none
    | _ => none

/-- Model of Python's `json.loads`, restricted to JSON arrays of string
literals — the only JSON shape this API surface consumes (`event_names` and
`excluded_properties` are documented as JSON arrays of names).  `none` models
`json.loads` raising `json.JSONDecodeError`. -/
def json_loads (s : String) : Option (List String) :=
  match skipWs s.data with
  | '[' :: cs1 =>
    match skipWs cs1 with
    | ']' :: cs2 => if skipWs cs2 = [] then some [] else none
    | _ =>
      match parseElemsAux (cs1.length + 1) cs1 with
      | none => none
      | some (l, rest) => if skipWs rest = [] then some l else none
  | _ => none

/-! ### The filter builders of `PropertyDefinitionViewSet` -/

/-- Helper for `pythonSplitComma`, working from the right of the character
list; the result list is always non-empty. -/
def splitCommaAux : List Char → List String
  | [] => [""]
  | c :: rest =>
    match splitCommaAux rest with
    | [] => []
    | s :: ss => if c = ',' then "" :: s :: ss else String.mk (c :: s.data) :: ss

/-- Model of Python's `str.split(",")`. -/
def pythonSplitComma (s : String) : List String :=
  splitCommaAux s.data

/-- `_get_name_filter`: the SQL fragment and the second component of the
source's return value — a *dictionary* with the single key `names` mapping to
the tuple of names (modelled as an association list).  When the `properties`
parameter is truthy the tuple is the comma-split value; otherwise the fragment
is empty and the tuple is empty. -/
def get_name_filter (req : RequestGET) : String × List (String × List String) :=
  match getTruthy req.properties with
  | some p => ("AND name IN %(names)s", [("names", pythonSplitComma p)])
  | none => ("", [("names", [])])

/-- `_get_numerical_filter`: a fixed fragment exactly when the `is_numerical`
parameter equals the string `true`. -/
def get_numerical_filter (req : RequestGET) : String :=
  if req.is_numerical = some "true" then
    "AND is_numerical = true AND name NOT IN ('distinct_id', 'timestamp')"
  else ""

/-- `_get_event_names`: returns the parameter parsed as JSON when truthy
(propagating the decode error), and the falsy value itself (modelled as
`none`) otherwise. -/
def get_event_names (req : RequestGET) : Except Err (Option (List String)) :=
  match getTruthy req.event_names with
  | none => .ok none
  | some s =>
    match json_loads s with
    | some l => .ok (some l)
    | none => .error .jsonDecodeError

/-- `_get_excluded_properties`: same parsing discipline as `_get_event_names`. -/
def get_excluded_properties (req : RequestGET) : Except Err (Option (List String)) :=
  match getTruthy req.excluded_properties with
  | none => .ok none
  | some s =>
    match json_loads s with
    | some l => .ok (some l)
    | none => .error .jsonDecodeError

/-- The correlated-subquery text used for the derived column. -/
def event_property_subquery : String :=
  "(SELECT count(1) > 0 FROM posthog_eventproperty WHERE posthog_eventproperty.team_id=posthog_propertydefinition.team_id AND posthog_eventproperty.event IN %(event_names)s AND posthog_eventproperty.property = posthog_propertydefinition.name)"

/-- `_get_event_property_field`: the SELECT expression for the derived column
and the optional equality filter on it.  The subquery (and hence the filter)
is only used when `event_names` parses to a non-empty list; otherwise the
field is the literal `NULL` and the filter is empty. -/
def get_event_property_field (req : RequestGET) : Except Err (String × String) := do
  let event_names ← get_event_names req
  match event_names with
  | some l =>
    if l.length > 0 then
      let field := event_property_subquery
      if req.is_event_property = some "true" then
        .ok (field, "AND " ++ field ++ " = true")
      else if req.is_event_property = some "false" then
        .ok (field, "AND " ++ field ++ " = false")
      else
        .ok (field, "")
    else
      .ok ("NULL", "")
  | none => .ok ("NULL", "")

/-- Modelled from the spec: `term_search_filter_sql` lives in
`posthog.filters`, which is not among the sources under study.  The spec says
it "delegates to an external term-search filter that produces its own query
fragment and bound parameters against the configured search fields (here:
`name`)", with all caller-controlled values bound, never interpolated.  We
model it as one ILIKE fragment per field with the wrapped term bound under the
`search` key, and no fragment for a falsy term. -/
def term_search_filter_sql (fields : List String) (search : Option String) :
    String × List (String × String) :=
  match getTruthy search with
  | none => ("", [])
  | some s =>
    ("AND (" ++ String.intercalate " OR " (fields.map (fun f => f ++ " ILIKE %(search)s")) ++ ")",
      [("search", "%" ++ s ++ "%")])

/-- The viewset's configured `search_fields`. -/
def search_fields : List String := ["name"]

/-- `_get_search_fields`. -/
def get_search_fields (req : RequestGET) : String × List (String × String) :=
  term_search_filter_sql search_fields req.search

/-! ### Query text -/

/-- Modelled from the spec: the projected column list comes from the Django
model's `_meta.get_fields()`; the model class is not among the sources under
study.  The spec lists the projected columns (`id`, `name`, `is_numerical`,
`query_usage_30_day`, `property_type`) plus the team scope column.  Fixed,
never caller-controlled. -/
def property_definition_fields : String :=
  String.intercalate ", "
    (["id", "team_id", "name", "is_numerical", "query_usage_30_day", "property_type"].map
      (fun c => "\"" ++ c ++ "\""))

/-- The f-string of `get_queryset` with the five interpolated fragments as
arguments (the column list is fixed). -/
def sqlText (event_property_field name_filter numerical_filter search_query
    event_property_filter : String) : String :=
  "\n                SELECT " ++ property_definition_fields ++ ",\n                       "
    ++ event_property_field ++ " AS is_event_property"
    ++ "\n                FROM posthog_propertydefinition"
    ++ "\n                WHERE team_id = %(team_id)s AND name NOT IN %(excluded_properties)s "
    ++ name_filter ++ " " ++ numerical_filter ++ " " ++ search_query ++ " "
    ++ event_property_filter
    ++ "\n                ORDER BY is_event_property DESC, query_usage_30_day DESC NULLS LAST, name ASC\n            "

/-- The raw SQL text assembled by `get_queryset` (the f-string of the source,
with each interpolated fragment substituted).  Parsing of `event_names` and
`excluded_properties` happens before the text is built (in the source's
order), so decode errors propagate exactly as in the source; the pure
fragment builders carry no effects. -/
def get_queryset_sql (req : RequestGET) : Except Err String := do
  let _event_names ← get_event_names req
  let _excluded ← get_excluded_properties req
  let ep ← get_event_property_field req
  .ok (sqlText ep.1 (get_name_filter req).1 (get_numerical_filter req)
        (get_search_fields req).1 ep.2)

/-! ### Query execution semantics -/

/-- Value of the derived `is_event_property` column for one property
definition row: when `event_names` parsed to a non-empty list, the correlated
subquery `count(1) > 0` over `posthog_eventproperty` rows matching the row's
team, an event in the list, and the row's name; otherwise the SQL `NULL`. -/
def evalEventPropertyField (db : Database) (event_names : Option (List String))
    (pd : PropertyDefinitionRow) : Option Bool :=
  match event_names with
  | some l =>
    if l.length > 0 then
      some (decide (0 < db.posthog_eventproperty.countP
        (fun ep => ep.team_id == pd.team_id && l.contains ep.event && ep.property == pd.name)))
    else none
  | none => none

/-- Case-insensitive substring test; models the spec's ILIKE match of the
search term wrapped in percent wildcards against the `name` field. -/
def strContainsCI (hay needle : String) : Bool :=
  (List.range (hay.toLower.data.length + 1)).any
    (fun i => needle.toLower.data.isPrefixOf (hay.toLower.data.drop i))

/-- The search predicate on a row (spec-modelled, see
`term_search_filter_sql`). -/
def searchPasses (req : RequestGET) (r : ResultRow) : Bool :=
  match getTruthy req.search with
  | none => true
  | some s => strContainsCI r.pd.name s

/-- The `AND (subquery) = true/false` filter appended by
`_get_event_property_field`: present only when `event_names` parsed to a
non-empty list and `is_event_property` is the string `true` or `false`. -/
def epFilterPasses (req : RequestGET) (event_names : Option (List String)) (r : ResultRow) : Bool :=
  match event_names with
  | some l =>
    if l.length > 0 then
      if req.is_event_property = some "true" then r.is_event_property == some true
      else if req.is_event_property = some "false" then r.is_event_property == some false
      else true
    else true
  | none => true

/-- The WHERE clause of the generated query, with the parse results of
`event_names` and `excluded_properties` supplied.  The `AND name IN %(names)s`
fragment appears in the query text exactly when `properties` is truthy, but
every such query fails at binding time (its `names` binding is the nested
dictionary of `get_queryset_params`, which psycopg2 cannot adapt — see
`bindParams`), so no conjunct for it belongs to the executable semantics:
every query that reaches execution has an empty name filter. -/
def rowPasses (req : RequestGET) (team_id : Nat) (event_names excluded : Option (List String))
    (r : ResultRow) : Bool :=
  r.pd.team_id == team_id
    && !((excluded.getD [] ++ HIDDEN_PROPERTY_DEFINITIONS).contains r.pd.name)
    && (!(req.is_numerical == some "true")
        || (r.pd.is_numerical && r.pd.name != "distinct_id" && r.pd.name != "timestamp"))
    && searchPasses req r
    && epFilterPasses req event_names r

/-- Byte-wise (C-collation) string order used for `name ASC`. -/
def charListLE : List Char → List Char → Bool
  | [], _ => true
  | _ :: _, [] => false
  | a :: as, b :: bs =>
    if a.toNat < b.toNat then true
    else if b.toNat < a.toNat then false
    else charListLE as bs

/-- Sort rank of the nullable boolean `is_event_property` under `DESC`:
PostgreSQL sorts `NULL` first in descending order, then `true`, then
`false`. -/
def epRankSQL : Option Bool → Nat
  | none => 2
  | some true => 1
  | some false => 0

/-- Strict precedence of the `query_usage_30_day DESC NULLS LAST` key: a
non-null value strictly precedes a smaller value, and any non-null value
strictly precedes a null. -/
def usageBefore : Option Int → Option Int → Bool
  | some x, some y => decide (y < x)
  | some _, none => true
  | none, some _ => false
  | none, none => false

/-- The `ORDER BY is_event_property DESC, query_usage_30_day DESC NULLS LAST,
name ASC` comparator as a boolean total preorder: strictly higher
`is_event_property` rank first, then strictly higher usage, then name order on
ties. -/
def rowLE (r s : ResultRow) : Bool :=
  decide (epRankSQL s.is_event_property < epRankSQL r.is_event_property)
    || (epRankSQL r.is_event_property == epRankSQL s.is_event_property
        && (usageBefore r.pd.query_usage_30_day s.pd.query_usage_30_day
            || (r.pd.query_usage_30_day == s.pd.query_usage_30_day
                && charListLE r.pd.name.data s.pd.name.data)))

/-- The ORDER BY comparator as a decidable relation (for sorting and for the
sortedness statements). -/
def rowOrder (r s : ResultRow) : Prop := rowLE r s = true

instance rowOrder.decidable : DecidableRel rowOrder :=
  fun r s => inferInstanceAs (Decidable (rowLE r s = true))

/-- Execution of the generated query over a database, given the parse results:
compute the derived column for every `posthog_propertydefinition` row, keep
the rows passing the WHERE clause, and sort by the ORDER BY comparator. -/
def runQuery (req : RequestGET) (team_id : Nat) (db : Database)
    (event_names excluded : Option (List String)) : List ResultRow :=
  List.insertionSort rowOrder
    ((db.posthog_propertydefinition.map
        (fun pd => ResultRow.mk pd (evalEventPropertyField db event_names pd))).filter
      (rowPasses req team_id event_names excluded))

/-- A value bound in the psycopg2 parameter dictionary of the raw query. -/
inductive SqlParam where
  | tuple (vs : List String)
  | number (n : Nat)
  | str (s : String)
  | dict (kvs : List (String × List String))
  deriving DecidableEq, Repr

/-- Whether psycopg2 can adapt a bound value: it has adapters for tuples,
numbers and strings, and none for a Python `dict`. -/
def SqlParam.adaptable : SqlParam → Bool
  | .dict _ => false
  | .tuple _ => true
  | .number _ => true
  | .str _ => true

/-- The bound-parameter dictionary assembled by `get_queryset` (lines 79-85).
Note the value bound under `names` is `name_params` — the whole dictionary
returned by `_get_name_filter` — not the tuple inside it; only
`search_params` is spread into the outer dictionary. -/
def get_queryset_params (req : RequestGET) (team_id : Nat)
    (event_names excluded : Option (List String)) : List (String × SqlParam) :=
  [("event_names", SqlParam.tuple (event_names.getD [])),
   ("names", SqlParam.dict (get_name_filter req).2),
   ("team_id", SqlParam.number team_id),
   ("excluded_properties",
     SqlParam.tuple ((excluded.getD [] ++ HIDDEN_PROPERTY_DEFINITIONS).dedup))]
  ++ (get_search_fields req).2.map (fun kv => (kv.1, SqlParam.str kv.2))

/-- The parameter keys referenced by the generated query text: `team_id` and
`excluded_properties` always, `names` exactly when the name filter fragment is
present, `event_names` exactly when the correlated subquery is used, `search`
exactly when the search fragment is present. -/
def referencedParams (req : RequestGET) (event_names : Option (List String)) : List String :=
  ["team_id", "excluded_properties"]
    ++ (if (getTruthy req.properties).isSome then ["names"] else [])
    ++ (match event_names with
        | some l => if l.length > 0 then ["event_names"] else []
        | none => [])
    ++ (if (getTruthy req.search).isSome then ["search"] else [])

/-- Model of psycopg2 parameter binding: executing the query adapts the value
bound under every placeholder the text references (unreferenced keys are
ignored); a referenced value with no adapter raises `ProgrammingError`. -/
def bindParams (keys : List String) (params : List (String × SqlParam)) : Except Err Unit :=
  if keys.all (fun k =>
      match params.lookup k with
      | some v => v.adaptable
      | none => false) then
    .ok ()
  else
    .error .programmingError

/-- `PropertyDefinitionViewSet.get_queryset`: parse `event_names` (line 74)
and `excluded_properties` (line 75), propagating their decode errors, then
execute the assembled query — which first binds the referenced parameters
(failing with `ProgrammingError` when a referenced binding is unadaptable,
as the nested `names` dictionary is) and then produces the rows. -/
def get_queryset (req : RequestGET) (team_id : Nat) (db : Database) :
    Except Err (List ResultRow) := do
  let event_names ← get_event_names req
  let excluded ← get_excluded_properties req
  let _ ← bindParams (referencedParams req event_names)
    (get_queryset_params req team_id event_names excluded)
  .ok (runQuery req team_id db event_names excluded)

/-! ### Retrieve and update -/

/-- `PropertyDefinitionViewSet.get_object`: `PropertyDefinition.objects.get(id=id)`
— a lookup by id alone over the whole table, with Django's `objects.get`
error behaviour.  Note: no team filter appears in the source. -/
def get_object (id : Nat) (db : Database) : Except Err PropertyDefinitionRow :=
  match db.posthog_propertydefinition.filter (fun r => r.id == id) with
  | [] => .error .doesNotExist
  | [r] => .ok r
  | _ => .error .multipleObjectsReturned

/-- `PropertyDefinitionSerializer.update`: unconditionally raises
`EnterpriseFeatureException`, whatever the instance and validated data. -/
def PropertyDefinitionSerializer.update (_pd : PropertyDefinitionRow)
    (_validated_data : List (String × String)) : Except Err PropertyDefinitionRow :=
  .error .enterpriseFeatureException

/-- Modelled from the framework's `UpdateModelMixin` flow: a PATCH/PUT fetches
the object via `get_object` and then calls the serializer's `update`; the
database value is threaded through unchanged (the serializer raises before any
write could happen). -/
def updateEndpoint (id : Nat) (body : List (String × String)) (db : Database) :
    Except Err PropertyDefinitionRow × Database :=
  match get_object id db with
  | .error e => (.error e, db)
  | .ok pd =>
    match PropertyDefinitionSerializer.update pd body with
    | .error e => (.error e, db)
    | .ok pd2 => (.ok pd2, db)

end Posthog

namespace Posthog

deriving instance DecidableEq for Except

/-! ### Shared concrete inputs used by the witnesses -/

/-- A small database: three team-1 property definitions (one hidden-named),
one team-2 definition, and one event-property association. -/
def exampleDb : Database :=
  ⟨[⟨1, 1, "alpha", true, some 10, some "Numeric"⟩,
    ⟨2, 1, "beta", false, none, none⟩,
    ⟨3, 1, "distinct_id", true, some 99, none⟩,
    ⟨4, 2, "gamma", false, some 5, none⟩],
   [⟨1, "login", "alpha"⟩]⟩

/-! ### Inversion and membership lemmas for the list query -/

/-- Unfolding `get_queryset` on successful parses and binding. -/
theorem get_queryset_eq {req : RequestGET} {team : Nat} {db : Database}
    {en ex : Option (List String)}
    (hev : get_event_names req = .ok en) (hex : get_excluded_properties req = .ok ex)
    (hbind : bindParams (referencedParams req en) (get_queryset_params req team en ex)
      = .ok ()) :
    get_queryset req team db = .ok (runQuery req team db en ex) := by
  unfold get_queryset
  rw [hev]
  simp [Bind.bind, Except.bind, hex, hbind]

/-- Inversion: a successful `get_queryset` run determines successful parses,
successful parameter binding and the result shape. -/
theorem get_queryset_ok_inv {req : RequestGET} {team : Nat} {db : Database}
    {rows : List ResultRow} (h : get_queryset req team db = .ok rows) :
    ∃ en ex, get_event_names req = .ok en ∧ get_excluded_properties req = .ok ex ∧
      bindParams (referencedParams req en) (get_queryset_params req team en ex) = .ok () ∧
      rows = runQuery req team db en ex := by
  unfold get_queryset at h
  cases hev : get_event_names req with
  | error e => rw [hev] at h; simp [Bind.bind, Except.bind] at h
  | ok en =>
    rw [hev] at h
    cases hex : get_excluded_properties req with
    | error e => rw [hex] at h; simp [Bind.bind, Except.bind] at h
    | ok ex =>
      rw [hex] at h
      simp only [Bind.bind, Except.bind] at h
      cases hb : bindParams (referencedParams req en) (get_queryset_params req team en ex) with
      | error e => rw [hb] at h; simp at h
      | ok u =>
        rw [hb] at h
        simp at h
        exact ⟨en, ex, rfl, rfl, by rw [hb], h.symm⟩

/-- Membership in the result set: a row comes from a property-definition row
with the derived column attached, and passes the WHERE clause. -/
theorem mem_runQuery {req : RequestGET} {team : Nat} {db : Database}
    {en ex : Option (List String)} {r : ResultRow} :
    r ∈ runQuery req team db en ex ↔
      ((∃ pd ∈ db.posthog_propertydefinition, r = ⟨pd, evalEventPropertyField db en pd⟩) ∧
        rowPasses req team en ex r = true) := by
  unfold runQuery
  rw [List.mem_insertionSort, List.mem_filter, List.mem_map]
  constructor
  · rintro ⟨⟨pd, hpd, hr⟩, hp⟩
    exact ⟨⟨pd, hpd, hr.symm⟩, hp⟩
  · rintro ⟨⟨pd, hpd, hr⟩, hp⟩
    exact ⟨⟨pd, hpd, hr.symm⟩, hp⟩

end Posthog

namespace Posthog

/-- Helper: `_get_event_names` can only fail with the JSON decode error. -/
theorem get_event_names_error {req : RequestGET} {e : Err}
    (h : get_event_names req = .error e) : e = .jsonDecodeError := by
  unfold get_event_names at h
  cases ht : getTruthy req.event_names <;> rw [ht] at h
  · simp at h
  · rename_i s
    cases hj : json_loads s <;> simp [hj] at h
    exact h.symm

/-- C5: every update (PATCH/PUT) of an existing property definition fails with
`EnterpriseFeatureException`, regardless of the request body, and the stored
data is unchanged. -/
theorem C5_update_always_feature_gated {id : Nat} {body : List (String × String)}
    {db : Database} {pd : PropertyDefinitionRow} (h : get_object id db = .ok pd) :
    updateEndpoint id body db = (.error .enterpriseFeatureException, db) := by
  unfold updateEndpoint
  rw [h]
  rfl

/-- Witness for C5 at a concrete database, id and body. -/
theorem C5_witness :
    get_object 1 exampleDb
      = .ok (PropertyDefinitionRow.mk 1 1 "alpha" true (some 10) (some "Numeric")) ∧
    updateEndpoint 1 [("name", "x")] exampleDb =
      (.error .enterpriseFeatureException, exampleDb) :=
  ⟨by decide,
    @C5_update_always_feature_gated 1 [("name", "x")] exampleDb
      (PropertyDefinitionRow.mk 1 1 "alpha" true (some 10) (some "Numeric")) (by decide)⟩

/-- C10: every row produced by the list query has the requesting team's id,
whatever the filter parameters. -/
theorem C10_team_isolation {req : RequestGET} {team : Nat} {db : Database}
    {rows : List ResultRow} (h : get_queryset req team db = .ok rows) :
    ∀ r ∈ rows, r.pd.team_id = team := by
  obtain ⟨en, ex, hev, hex, hbind, hrows⟩ := get_queryset_ok_inv h
  subst hrows
  intro r hr
  obtain ⟨-, hp⟩ := mem_runQuery.mp hr
  simp only [rowPasses, Bool.and_eq_true, beq_iff_eq] at hp
  exact hp.1.1.1.1

/-- Witness for C10 on a concrete run. -/
theorem C10_witness :
    get_queryset {} 1 exampleDb =
      .ok [ResultRow.mk (PropertyDefinitionRow.mk 1 1 "alpha" true (some 10) (some "Numeric")) none,
           ResultRow.mk (PropertyDefinitionRow.mk 2 1 "beta" false none none) none] ∧
    (ResultRow.mk (PropertyDefinitionRow.mk 1 1 "alpha" true (some 10) (some "Numeric")) none).pd.team_id = 1 :=
  ⟨by decide,
    @C10_team_isolation {} 1 exampleDb
      [ResultRow.mk (PropertyDefinitionRow.mk 1 1 "alpha" true (some 10) (some "Numeric")) none,
       ResultRow.mk (PropertyDefinitionRow.mk 2 1 "beta" false none none) none]
      (by decide)
      (ResultRow.mk (PropertyDefinitionRow.mk 1 1 "alpha" true (some 10) (some "Numeric")) none)
      (by decide)⟩

/-- Request of the C1 scenario: `properties` explicitly asks for the hidden
name `distinct_id` next to the visible `alpha`. -/
def reqC1 : RequestGET := { properties := some "alpha,distinct_id" }

/-- C1, evaluation of the code at the failing input.  The spec's scenario says
a request naming a hidden property through `properties` returns only the
non-hidden matches — with intact exclusion that is what the query text would
compute.  In the code as written the request never gets that far: line 81
binds the `names` placeholder to the whole dictionary `_get_name_filter`
returned (second conjunct), psycopg2 has no adapter for a dict, and the
request fails with `ProgrammingError` (first conjunct) instead of returning
rows.  On requests without `properties` the hidden-set exclusion does work:
the same database without the name filter yields only the non-hidden rows
(third conjunct — `distinct_id`'s team-1 row is absent). -/
theorem C1_properties_binding_bug :
    get_queryset reqC1 1 exampleDb = .error .programmingError ∧
    (get_queryset_params reqC1 1 none none).lookup "names"
      = some (SqlParam.dict [("names", ["alpha", "distinct_id"])]) ∧
    get_queryset {} 1 exampleDb =
      .ok [ResultRow.mk (PropertyDefinitionRow.mk 1 1 "alpha" true (some 10) (some "Numeric")) none,
           ResultRow.mk (PropertyDefinitionRow.mk 2 1 "beta" false none none) none] := by
  decide

/-- Counterexample to C4 as stated: property definition id 4 belongs to team 2,
the caller's team scope is team 1, yet `get_object` returns the row instead of
failing with a not-found error — the source's
`PropertyDefinition.objects.get(id=id)` has no team filter. -/
theorem C4_counterexample :
    get_object 4 exampleDb = .ok (PropertyDefinitionRow.mk 4 2 "gamma" false (some 5) none) ∧
    (PropertyDefinitionRow.mk 4 2 "gamma" false (some 5) none).team_id ≠ 1 := by decide

/-- C4 as amended: retrieve-by-id fails with `DoesNotExist` when no row has the
identifier, and returns the unique matching row regardless of which team owns
it (no team scoping is applied). -/
theorem C4_amended_retrieve {id : Nat} {db : Database} :
    ((∀ r ∈ db.posthog_propertydefinition, r.id ≠ id) →
        get_object id db = .error .doesNotExist) ∧
    (∀ r, db.posthog_propertydefinition.filter (fun x => x.id == id) = [r] →
        get_object id db = .ok r) := by
  constructor
  · intro hall
    unfold get_object
    have hnil : db.posthog_propertydefinition.filter (fun x => x.id == id) = [] := by
      rw [List.filter_eq_nil_iff]
      intro a ha
      simp [hall a ha]
    rw [hnil]
  · intro r hr
    unfold get_object
    rw [hr]

/-- Witness for the amended C4: a missing id fails with `DoesNotExist`; the
team-2 row is returned by id even though the scenario's caller team is 1. -/
theorem C4_witness :
    get_object 99 exampleDb = .error .doesNotExist ∧
    get_object 4 exampleDb = .ok (PropertyDefinitionRow.mk 4 2 "gamma" false (some 5) none) :=
  ⟨C4_amended_retrieve.1 (by decide), C4_amended_retrieve.2 _ (by decide)⟩

/-- Request of the C6 theorems: a malformed `event_names` value. -/
def reqC6 : RequestGET := { event_names := some "not-json" }

/-- Counterexample to C6 as stated: on malformed `event_names` the operation
fails with the raw `json.JSONDecodeError` (`json.loads` is called without any
wrapping), which is not DRF's `ParseError` and not an `APIException`, so it is
not surfaced as a client (4xx-equivalent) error. -/
theorem C6_counterexample :
    get_queryset reqC6 1 exampleDb = .error .jsonDecodeError ∧
    Err.jsonDecodeError ≠ Err.parseError ∧
    Err.isAPIException .jsonDecodeError = false := by decide

/-- C6 as amended: when `event_names` or `excluded_properties` is present
(truthy) and not valid JSON, the list operation fails with the JSON decode
error — it is not silently treated as an empty list, but the error is the
unwrapped exception rather than a `ParseError` client error. -/
theorem C6_amended_parse_failure {req : RequestGET} {team : Nat} {db : Database}
    (h : (∃ s, getTruthy req.event_names = some s ∧ json_loads s = none) ∨
         (∃ s, getTruthy req.excluded_properties = some s ∧ json_loads s = none)) :
    get_queryset req team db = .error .jsonDecodeError := by
  rcases h with ⟨s, hs, hp⟩ | ⟨s, hs, hp⟩
  · have hev : get_event_names req = .error .jsonDecodeError := by
      unfold get_event_names
      rw [hs]
      simp [hp]
    unfold get_queryset
    rw [hev]
    rfl
  · cases hev : get_event_names req with
    | error e =>
      obtain rfl : e = Err.jsonDecodeError := get_event_names_error hev
      unfold get_queryset
      rw [hev]
      rfl
    | ok en =>
      have hex : get_excluded_properties req = .error .jsonDecodeError := by
        unfold get_excluded_properties
        rw [hs]
        simp [hp]
      unfold get_queryset
      rw [hev]
      simp [Bind.bind, Except.bind, hex]

/-- Witness for the amended C6 at the malformed request. -/
theorem C6_witness :
    (getTruthy (some "not-json") = some "not-json" ∧ json_loads "not-json" = none) ∧
    get_queryset reqC6 1 exampleDb = .error .jsonDecodeError :=
  ⟨⟨by decide, by decide⟩,
    C6_amended_parse_failure (Or.inl ⟨"not-json", by decide, by decide⟩)⟩

end Posthog

namespace Posthog

/-- Request of the C8 scenario: numeric-only listing that explicitly asks for
`distinct_id` and `timestamp` as well. -/
def reqC8 : RequestGET :=
  { properties := some "alpha,distinct_id,timestamp", is_numerical := some "true" }

/-- C8, evaluation of the code at the failing input.  The claim's scenario —
`is_numerical="true"` with `distinct_id` and `timestamp` explicitly requested
through `properties` — should return the numerical, non-reserved matches
(here only `alpha`); in the code as written any truthy `properties` request
fails at execution, because line 81 binds `names` to the nested dictionary
`_get_name_filter` returned, which psycopg2 cannot adapt: the request raises
`ProgrammingError` (first conjunct) instead of the filtered rows.  Without
`properties` the numerical restriction itself does work: the same run minus
the `properties` parameter returns exactly the numerical, non-reserved
`alpha` (second conjunct — the non-numerical `beta` and the reserved, hidden
`distinct_id` are absent). -/
theorem C8_properties_binding_bug :
    get_queryset reqC8 1 exampleDb = .error .programmingError ∧
    get_queryset { is_numerical := some "true" } 1 exampleDb =
      .ok [ResultRow.mk (PropertyDefinitionRow.mk 1 1 "alpha" true (some 10) (some "Numeric")) none] := by
  decide

/-- C2: when `event_names` parses to a non-empty list, every returned row's
derived `is_event_property` equals the boolean "the count of EventProperty
rows with the row's team, an event in the list and the row's property name is
positive", and an `is_event_property` filter of `true`/`false` restricts the
rows to that derived value; when `event_names` is absent or empty, the derived
column is null for every row and supplying `is_event_property` has no
filtering effect. -/
theorem C2_event_property_semantics {req : RequestGET} {team : Nat} {db : Database}
    {rows : List ResultRow} {en : Option (List String)}
    (hev : get_event_names req = .ok en)
    (h : get_queryset req team db = .ok rows) :
    (∀ l, en = some l → l ≠ [] →
      (∀ r ∈ rows, r.is_event_property =
        some (decide (0 < db.posthog_eventproperty.countP
          (fun ep => ep.team_id == r.pd.team_id && l.contains ep.event
            && ep.property == r.pd.name))))
      ∧ (req.is_event_property = some "true" → ∀ r ∈ rows, r.is_event_property = some true)
      ∧ (req.is_event_property = some "false" → ∀ r ∈ rows, r.is_event_property = some false))
    ∧ ((en = none ∨ en = some []) →
      (∀ r ∈ rows, r.is_event_property = none)
      ∧ get_queryset { req with is_event_property := none } team db = .ok rows) := by
  obtain ⟨en', ex, hev', hex, hbind, hrows⟩ := get_queryset_ok_inv h
  rw [hev] at hev'
  injection hev' with hen
  subst hen
  constructor
  · intro l hl hlne
    subst hl
    have hlen : 0 < l.length := List.length_pos.mpr hlne
    refine ⟨?_, ?_, ?_⟩
    · intro r hr
      rw [hrows] at hr
      obtain ⟨⟨pd, hpd, hrpd⟩, -⟩ := mem_runQuery.mp hr
      subst hrpd
      simp [evalEventPropertyField, hlen]
    · intro htrue r hr
      rw [hrows] at hr
      obtain ⟨-, hp⟩ := mem_runQuery.mp hr
      simp only [rowPasses, Bool.and_eq_true] at hp
      obtain ⟨-, hep⟩ := hp
      simp only [epFilterPasses] at hep
      rw [if_pos hlen, if_pos htrue] at hep
      exact beq_iff_eq.mp hep
    · intro hfalse r hr
      rw [hrows] at hr
      obtain ⟨-, hp⟩ := mem_runQuery.mp hr
      simp only [rowPasses, Bool.and_eq_true] at hp
      obtain ⟨-, hep⟩ := hp
      have hne : ¬ req.is_event_property = some "true" := by
        rw [hfalse]
        decide
      simp only [epFilterPasses] at hep
      rw [if_pos hlen, if_neg hne, if_pos hfalse] at hep
      exact beq_iff_eq.mp hep
  · intro hB
    constructor
    · intro r hr
      rw [hrows] at hr
      obtain ⟨⟨pd, hpd, hrpd⟩, -⟩ := mem_runQuery.mp hr
      subst hrpd
      rcases hB with rfl | rfl <;> simp [evalEventPropertyField]
    · have hev2 : get_event_names { req with is_event_property := none } = .ok en := hev
      have hex2 : get_excluded_properties { req with is_event_property := none } = .ok ex := hex
      have hbind2 : bindParams (referencedParams { req with is_event_property := none } en)
          (get_queryset_params { req with is_event_property := none } team en ex)
          = .ok () := hbind
      rw [get_queryset_eq hev2 hex2 hbind2, hrows]
      have hname : get_name_filter { req with is_event_property := none }
          = get_name_filter req := rfl
      have hsearch : ∀ r, searchPasses { req with is_event_property := none } r
          = searchPasses req r := fun _ => rfl
      have heppass : ∀ r, epFilterPasses { req with is_event_property := none } en r
          = epFilterPasses req en r := by
        intro r
        rcases hB with rfl | rfl <;> simp [epFilterPasses]
      have hpass : ∀ r, rowPasses { req with is_event_property := none } team en ex r
          = rowPasses req team en ex r := by
        intro r
        simp [rowPasses, hname, hsearch, heppass]
      unfold runQuery
      rw [funext hpass]

/-- Request of the C2 witness: one event name, filtering to associated rows. -/
def reqC2 : RequestGET :=
  { event_names := some "[\"login\"]", is_event_property := some "true" }

/-- Witness for C2: only `alpha` (associated with `login`) is returned, with
derived column `true`. -/
theorem C2_witness :
    get_event_names reqC2 = .ok (some ["login"]) ∧
    get_queryset reqC2 1 exampleDb =
      .ok [ResultRow.mk (PropertyDefinitionRow.mk 1 1 "alpha" true (some 10) (some "Numeric")) (some true)] ∧
    (ResultRow.mk (PropertyDefinitionRow.mk 1 1 "alpha" true (some 10) (some "Numeric")) (some true)).is_event_property = some true :=
  ⟨by decide, by decide,
    ((@C2_event_property_semantics reqC2 1 exampleDb
          [ResultRow.mk (PropertyDefinitionRow.mk 1 1 "alpha" true (some 10) (some "Numeric")) (some true)]
          (some ["login"]) (by decide) (by decide)).1
        ["login"] rfl (by decide)).2.1 rfl
      (ResultRow.mk (PropertyDefinitionRow.mk 1 1 "alpha" true (some 10) (some "Numeric")) (some true))
      (by decide)⟩

end Posthog

namespace Posthog

/-- Which of the six query parameters are present (key supplied, regardless of
value) — the granularity used by the claim about query-text stability. -/
def presencePattern (req : RequestGET) : Bool × Bool × Bool × Bool × Bool × Bool :=
  (req.properties.isSome, req.is_numerical.isSome, req.event_names.isSome,
    req.is_event_property.isSome, req.excluded_properties.isSome, req.search.isSome)

/-- Whether `event_names` is supplied, truthy, and parses to a non-empty
list. -/
def eventNamesNonEmpty (req : RequestGET) : Bool :=
  match get_event_names req with
  | .ok (some l) => decide (l.length > 0)
  | _ => false


/-- The value computed by `_get_event_property_field` as a pure function of
the `is_event_property` parameter and the parsed `event_names` (used to state
its characterisation). -/
def epFieldSpec (iep : Option String) (en : Option (List String)) : String × String :=
  match en with
  | some l =>
    if l.length > 0 then
      (event_property_subquery,
        if iep = some "true" then "AND " ++ event_property_subquery ++ " = true"
        else if iep = some "false" then "AND " ++ event_property_subquery ++ " = false"
        else "")
    else ("NULL", "")
  | none => ("NULL", "")

/-- Characterisation of `_get_event_property_field` on a successful parse. -/
theorem get_event_property_field_ok {req : RequestGET} {en : Option (List String)}
    (hev : get_event_names req = .ok en) :
    get_event_property_field req = .ok (epFieldSpec req.is_event_property en) := by
  unfold get_event_property_field epFieldSpec
  rw [hev]
  cases en with
  | none => rfl
  | some l =>
    simp only [Bind.bind, Except.bind]
    split_ifs <;> rfl

/-- Characterisation of `eventNamesNonEmpty` on a successful parse. -/
theorem eventNamesNonEmpty_eq {req : RequestGET} {en : Option (List String)}
    (hev : get_event_names req = .ok en) :
    eventNamesNonEmpty req = en.elim false (fun l => decide (l.length > 0)) := by
  unfold eventNamesNonEmpty
  rw [hev]
  cases en <;> rfl

/-- Inversion of the query-text builder on success. -/
theorem get_queryset_sql_ok_inv {req : RequestGET} {t : String}
    (h : get_queryset_sql req = .ok t) :
    ∃ en ex p, get_event_names req = .ok en ∧ get_excluded_properties req = .ok ex ∧
      get_event_property_field req = .ok p ∧
      t = sqlText p.1 (get_name_filter req).1 (get_numerical_filter req)
            (get_search_fields req).1 p.2 := by
  unfold get_queryset_sql at h
  cases hev : get_event_names req with
  | error e => rw [hev] at h; simp [Bind.bind, Except.bind] at h
  | ok en =>
    rw [hev] at h
    cases hex : get_excluded_properties req with
    | error e => rw [hex] at h; simp [Bind.bind, Except.bind] at h
    | ok ex =>
      rw [hex] at h
      cases hepf : get_event_property_field req with
      | error e => rw [hepf] at h; simp [Bind.bind, Except.bind] at h
      | ok p =>
        rw [hepf] at h
        simp [Bind.bind, Except.bind] at h
        exact ⟨en, ex, p, rfl, rfl, rfl, h.symm⟩

/-- C3 as amended: two list requests that agree on which parameters are
present *with truthy values*, on the `is_numerical = "true"` flag, on each of
the `is_event_property = "true"` / `= "false"` flags, and on whether
`event_names` parses to a non-empty list, generate identical SQL query text
(caller-supplied values appear only in the bound parameters). -/
theorem C3_amended_sql_text {r1 r2 : RequestGET} {t1 t2 : String}
    (hprops : (getTruthy r1.properties).isSome = (getTruthy r2.properties).isSome)
    (hnum : r1.is_numerical = some "true" ↔ r2.is_numerical = some "true")
    (heptrue : r1.is_event_property = some "true" ↔ r2.is_event_property = some "true")
    (hepfalse : r1.is_event_property = some "false" ↔ r2.is_event_property = some "false")
    (heve : eventNamesNonEmpty r1 = eventNamesNonEmpty r2)
    (hsearch : (getTruthy r1.search).isSome = (getTruthy r2.search).isSome)
    (h1 : get_queryset_sql r1 = .ok t1) (h2 : get_queryset_sql r2 = .ok t2) :
    t1 = t2 := by
  obtain ⟨en1, ex1, p1, hev1, hex1, hepf1, ht1⟩ := get_queryset_sql_ok_inv h1
  obtain ⟨en2, ex2, p2, hev2, hex2, hepf2, ht2⟩ := get_queryset_sql_ok_inv h2
  subst ht1 ht2
  have hnf : (get_name_filter r1).1 = (get_name_filter r2).1 := by
    unfold get_name_filter
    cases hg1 : getTruthy r1.properties <;> cases hg2 : getTruthy r2.properties <;>
        rw [hg1, hg2] at hprops <;> first | rfl | simp at hprops
  have hnumf : get_numerical_filter r1 = get_numerical_filter r2 := by
    unfold get_numerical_filter
    by_cases hc : r1.is_numerical = some "true"
    · rw [if_pos hc, if_pos (hnum.mp hc)]
    · rw [if_neg hc, if_neg (fun hh => hc (hnum.mpr hh))]
  have hsf : (get_search_fields r1).1 = (get_search_fields r2).1 := by
    unfold get_search_fields term_search_filter_sql
    cases hg1 : getTruthy r1.search <;> cases hg2 : getTruthy r2.search <;>
        rw [hg1, hg2] at hsearch <;> first | rfl | simp at hsearch
  have hfil : (if r1.is_event_property = some "true" then
        "AND " ++ event_property_subquery ++ " = true"
      else if r1.is_event_property = some "false" then
        "AND " ++ event_property_subquery ++ " = false"
      else "")
      = (if r2.is_event_property = some "true" then
        "AND " ++ event_property_subquery ++ " = true"
      else if r2.is_event_property = some "false" then
        "AND " ++ event_property_subquery ++ " = false"
      else "") := by
    by_cases hc : r1.is_event_property = some "true"
    · rw [if_pos hc, if_pos (heptrue.mp hc)]
    · rw [if_neg hc, if_neg (fun hh => hc (heptrue.mpr hh))]
      by_cases hd : r1.is_event_property = some "false"
      · rw [if_pos hd, if_pos (hepfalse.mp hd)]
      · rw [if_neg hd, if_neg (fun hh => hd (hepfalse.mpr hh))]
  have hsp1 : epFieldSpec r1.is_event_property en1 = p1 :=
    Except.ok.inj ((get_event_property_field_ok hev1).symm.trans hepf1)
  have hsp2 : epFieldSpec r2.is_event_property en2 = p2 :=
    Except.ok.inj ((get_event_property_field_ok hev2).symm.trans hepf2)
  rw [eventNamesNonEmpty_eq hev1, eventNamesNonEmpty_eq hev2] at heve
  have hpp : p1 = p2 := by
    rw [← hsp1, ← hsp2]
    rcases en1 with _ | l1 <;> rcases en2 with _ | l2 <;>
        simp only [Option.elim] at heve <;> simp only [epFieldSpec]
    · have hl2 : ¬ l2.length > 0 := of_decide_eq_false heve.symm
      rw [if_neg hl2]
    · have hl1 : ¬ l1.length > 0 := of_decide_eq_false heve
      rw [if_neg hl1]
    · have hiff : l1.length > 0 ↔ l2.length > 0 := decide_eq_decide.mp heve
      by_cases hl1 : l1.length > 0
      · rw [if_pos hl1, if_pos (hiff.mp hl1), hfil]
      · rw [if_neg hl1, if_neg (fun hh => hl1 (hiff.mpr hh))]
  rw [hnf, hnumf, hsf, hpp]

/-- First request of the C3 counterexample: both requests supply the
`properties` key (so the presence patterns agree) but this one's value is the
empty string. -/
def reqC3a : RequestGET := { properties := some "" }

/-- Second request of the C3 counterexample. -/
def reqC3b : RequestGET := { properties := some "a" }

set_option maxRecDepth 20000 in
/-- Counterexample to C3 as stated: the two requests agree on which
parameters are present, on the `is_numerical` flag, on both
`is_event_property` flags and on `event_names` parsing to a non-empty list,
yet the generated SQL texts differ (a present-but-empty `properties` value is
falsy in Python, so the `AND name IN %(names)s` fragment is omitted for one
of them). -/
theorem C3_counterexample :
    presencePattern reqC3a = presencePattern reqC3b ∧
    (reqC3a.is_numerical = some "true" ↔ reqC3b.is_numerical = some "true") ∧
    (reqC3a.is_event_property = some "true" ↔ reqC3b.is_event_property = some "true") ∧
    (reqC3a.is_event_property = some "false" ↔ reqC3b.is_event_property = some "false") ∧
    eventNamesNonEmpty reqC3a = eventNamesNonEmpty reqC3b ∧
    get_queryset_sql reqC3a ≠ get_queryset_sql reqC3b := by decide

/-- First request of the C3 witness: truthy-agreeing with the second but with
different caller-supplied values. -/
def reqC3c : RequestGET := { properties := some "x,y", search := some "foo" }

/-- Second request of the C3 witness. -/
def reqC3d : RequestGET := { properties := some "z", search := some "bar" }

set_option maxRecDepth 20000 in
/-- Witness for the amended C3 at concrete requests differing only in bound
values: the generated texts coincide. -/
theorem C3_witness :
    get_queryset_sql reqC3c =
      .ok (sqlText "NULL" "AND name IN %(names)s" "" "AND (name ILIKE %(search)s)" "") ∧
    get_queryset_sql reqC3d =
      .ok (sqlText "NULL" "AND name IN %(names)s" "" "AND (name ILIKE %(search)s)" "") ∧
    sqlText "NULL" "AND name IN %(names)s" "" "AND (name ILIKE %(search)s)" ""
      = sqlText "NULL" "AND name IN %(names)s" "" "AND (name ILIKE %(search)s)" "" :=
  ⟨by decide, by decide,
    @C3_amended_sql_text reqC3c reqC3d
      (sqlText "NULL" "AND name IN %(names)s" "" "AND (name ILIKE %(search)s)" "")
      (sqlText "NULL" "AND name IN %(names)s" "" "AND (name ILIKE %(search)s)" "")
      rfl (by decide) (by decide) (by decide) rfl rfl (by decide) (by decide)⟩

end Posthog

namespace Posthog

/-! ### The ordering claim -/

/-- Transitivity of the byte-wise string order. -/
theorem charListLE_trans : ∀ (a b c : List Char),
    charListLE a b = true → charListLE b c = true → charListLE a c = true
  | [], _, _, _, _ => rfl
  | _ :: _, [], _, hab, _ => by simp [charListLE] at hab
  | _ :: _, _ :: _, [], _, hbc => by simp [charListLE] at hbc
  | x :: xs, y :: ys, z :: zs, hab, hbc => by
    unfold charListLE at hab hbc ⊢
    split_ifs at hab hbc ⊢ <;>
      first
        | rfl
        | omega
        | exact charListLE_trans xs ys zs hab hbc

/-- Totality of the byte-wise string order. -/
theorem charListLE_total : ∀ (a b : List Char),
    charListLE a b = true ∨ charListLE b a = true
  | [], _ => Or.inl rfl
  | _ :: _, [] => Or.inr rfl
  | x :: xs, y :: ys => by
    unfold charListLE
    rcases Nat.lt_trichotomy x.toNat y.toNat with h | h | h
    · left
      rw [if_pos h]
    · have h1 : ¬ x.toNat < y.toNat := by omega
      have h2 : ¬ y.toNat < x.toNat := by omega
      rw [if_neg h1, if_neg h2, if_neg h2, if_neg h1]
      exact charListLE_total xs ys
    · right
      rw [if_pos h]

/-- Transitivity of `usageBefore`. -/
theorem usageBefore_trans : ∀ (a b c : Option Int),
    usageBefore a b = true → usageBefore b c = true → usageBefore a c = true := by
  intro a b c h1 h2
  rcases a with _ | x <;> rcases b with _ | y <;> rcases c with _ | z <;>
      simp_all [usageBefore]
  omega

/-- Trichotomy of `usageBefore` with ties. -/
theorem usageBefore_total (a b : Option Int) :
    usageBefore a b = true ∨ a = b ∨ usageBefore b a = true := by
  rcases a with _ | x <;> rcases b with _ | y <;> simp [usageBefore]
  omega

/-- Transitivity of the ORDER BY comparator. -/
theorem rowLE_trans (r s t : ResultRow) (h1 : rowLE r s = true) (h2 : rowLE s t = true) :
    rowLE r t = true := by
  simp only [rowLE, Bool.or_eq_true, Bool.and_eq_true, decide_eq_true_eq,
    beq_iff_eq] at h1 h2 ⊢
  rcases h1 with h1 | ⟨h1e, h1u⟩ <;> rcases h2 with h2 | ⟨h2e, h2u⟩
  · left; omega
  · left; omega
  · left; omega
  · right
    refine ⟨h1e.trans h2e, ?_⟩
    rcases h1u with h1u | ⟨h1t, h1n⟩ <;> rcases h2u with h2u | ⟨h2t, h2n⟩
    · exact Or.inl (usageBefore_trans _ _ _ h1u h2u)
    · left
      rw [← h2t]
      exact h1u
    · left
      rw [h1t]
      exact h2u
    · exact Or.inr ⟨h1t.trans h2t, charListLE_trans _ _ _ h1n h2n⟩

/-- Totality of the ORDER BY comparator. -/
theorem rowLE_total (r s : ResultRow) : rowLE r s = true ∨ rowLE s r = true := by
  simp only [rowLE, Bool.or_eq_true, Bool.and_eq_true, decide_eq_true_eq, beq_iff_eq]
  rcases Nat.lt_trichotomy (epRankSQL r.is_event_property)
      (epRankSQL s.is_event_property) with h | h | h
  · exact Or.inr (Or.inl h)
  · rcases usageBefore_total r.pd.query_usage_30_day s.pd.query_usage_30_day
        with hu | hu | hu
    · exact Or.inl (Or.inr ⟨h, Or.inl hu⟩)
    · rcases charListLE_total r.pd.name.data s.pd.name.data with hn | hn
      · exact Or.inl (Or.inr ⟨h, Or.inr ⟨hu, hn⟩⟩)
      · exact Or.inr (Or.inr ⟨h.symm, Or.inr ⟨hu.symm, hn⟩⟩)
    · exact Or.inr (Or.inr ⟨h.symm, Or.inl hu⟩)
  · exact Or.inl (Or.inl h)

instance rowOrder.isTrans : IsTrans ResultRow rowOrder := ⟨rowLE_trans⟩

instance rowOrder.isTotal : IsTotal ResultRow rowOrder := ⟨rowLE_total⟩

/-- Rank used by the claimed ordering: rows with `is_event_property = true`
sort before both `false` and null rows. -/
def epTrueRank : Option Bool → Nat
  | some true => 1
  | _ => 0

/-- The ordering stated by the claim between two adjacent result rows:
`is_event_property` descending with `true` first, then `query_usage_30_day`
descending with nulls last, then name ascending on ties. -/
def claimOrdered (r s : ResultRow) : Prop :=
  epTrueRank s.is_event_property < epTrueRank r.is_event_property ∨
    (epTrueRank r.is_event_property = epTrueRank s.is_event_property ∧
      (usageBefore r.pd.query_usage_30_day s.pd.query_usage_30_day = true ∨
        (r.pd.query_usage_30_day = s.pd.query_usage_30_day ∧
          charListLE r.pd.name.data s.pd.name.data = true)))

/-- The derived column of every row of one run has the same shape: all null
(when `event_names` is absent or empty) or all boolean. -/
theorem runQuery_shape (req : RequestGET) (team : Nat) (db : Database)
    (en ex : Option (List String)) :
    (∀ r ∈ runQuery req team db en ex, r.is_event_property = none) ∨
    (∀ r ∈ runQuery req team db en ex, r.is_event_property.isSome = true) := by
  rcases en with _ | l
  · left
    intro r hr
    obtain ⟨⟨pd, hpd, rfl⟩, -⟩ := mem_runQuery.mp hr
    rfl
  · by_cases hl : l.length > 0
    · right
      intro r hr
      obtain ⟨⟨pd, hpd, rfl⟩, -⟩ := mem_runQuery.mp hr
      simp [evalEventPropertyField, hl]
    · left
      intro r hr
      obtain ⟨⟨pd, hpd, rfl⟩, -⟩ := mem_runQuery.mp hr
      simp [evalEventPropertyField, hl]

/-- On rows whose derived columns are either both null or both non-null, the
SQL comparator implies the claimed ordering. -/
theorem rowLE_implies_claim {r s : ResultRow}
    (hshape : (r.is_event_property = none ∧ s.is_event_property = none) ∨
      (r.is_event_property.isSome = true ∧ s.is_event_property.isSome = true))
    (h : rowLE r s = true) : claimOrdered r s := by
  have hmain : epRankSQL s.is_event_property < epRankSQL r.is_event_property ∨
      (epRankSQL r.is_event_property = epRankSQL s.is_event_property ∧
        (usageBefore r.pd.query_usage_30_day s.pd.query_usage_30_day = true ∨
          (r.pd.query_usage_30_day = s.pd.query_usage_30_day ∧
            charListLE r.pd.name.data s.pd.name.data = true))) := by
    simpa only [rowLE, Bool.or_eq_true, Bool.and_eq_true, decide_eq_true_eq,
      beq_iff_eq] using h
  have hrank : (epTrueRank r.is_event_property = epTrueRank s.is_event_property ↔
        epRankSQL r.is_event_property = epRankSQL s.is_event_property) ∧
      (epTrueRank s.is_event_property < epTrueRank r.is_event_property ↔
        epRankSQL s.is_event_property < epRankSQL r.is_event_property) := by
    rcases hshape with ⟨h1, h2⟩ | ⟨h1, h2⟩
    · rw [h1, h2]
      decide
    · obtain ⟨b1, hb1⟩ := Option.isSome_iff_exists.mp h1
      obtain ⟨b2, hb2⟩ := Option.isSome_iff_exists.mp h2
      rw [hb1, hb2]
      rcases b1 <;> rcases b2 <;> decide
  unfold claimOrdered
  rcases hmain with h | ⟨he, hu⟩
  · exact Or.inl (hrank.2.mpr h)
  · exact Or.inr ⟨hrank.1.mpr he, hu⟩

/-- C7: the rows of every list run are ordered by the derived
`is_event_property` descending (`true` before `false` and null), then by
`query_usage_30_day` descending with nulls last, then by name ascending. -/
theorem C7_ordering {req : RequestGET} {team : Nat} {db : Database}
    {rows : List ResultRow} (h : get_queryset req team db = .ok rows) :
    List.Pairwise claimOrdered rows := by
  obtain ⟨en, ex, hev, hex, hbind, hrows⟩ := get_queryset_ok_inv h
  subst hrows
  have hsorted : List.Pairwise rowOrder (runQuery req team db en ex) := by
    unfold runQuery
    exact List.sorted_insertionSort rowOrder _
  have hshape := runQuery_shape req team db en ex
  refine List.Pairwise.imp_of_mem ?_ hsorted
  intro a b ha hb hab
  rcases hshape with hs | hs
  · exact rowLE_implies_claim (Or.inl ⟨hs a ha, hs b hb⟩) hab
  · exact rowLE_implies_claim (Or.inr ⟨hs a ha, hs b hb⟩) hab

/-- Witness for C7 on a run whose two rows exercise the usage-descending,
nulls-last tie-break. -/
theorem C7_witness :
    get_queryset { is_numerical := none } 1 exampleDb =
      .ok [ResultRow.mk (PropertyDefinitionRow.mk 1 1 "alpha" true (some 10) (some "Numeric")) none,
           ResultRow.mk (PropertyDefinitionRow.mk 2 1 "beta" false none none) none] ∧
    List.Pairwise claimOrdered
      [ResultRow.mk (PropertyDefinitionRow.mk 1 1 "alpha" true (some 10) (some "Numeric")) none,
       ResultRow.mk (PropertyDefinitionRow.mk 2 1 "beta" false none none) none] :=
  ⟨by decide,
    @C7_ordering { is_numerical := none } 1 exampleDb
      [ResultRow.mk (PropertyDefinitionRow.mk 1 1 "alpha" true (some 10) (some "Numeric")) none,
       ResultRow.mk (PropertyDefinitionRow.mk 2 1 "beta" false none none) none]
      (by decide)⟩

end Posthog

namespace Posthog

/-! ### The hidden-set cardinality claim -/

/-- Decimal accumulator step used to read back `Nat.repr`. -/
def reprVal (acc : Nat) (c : Char) : Nat := 10 * acc + (c.toNat - 48)

/-- The code of each decimal digit character. -/
theorem digitChar_toNat_of_lt : ∀ d, d < 10 → (Nat.digitChar d).toNat = 48 + d := by decide

/-- Each decimal digit character is a digit. -/
theorem digitChar_isDigit_of_lt : ∀ d, d < 10 → (Nat.digitChar d).isDigit = true := by decide

/-- Folding the decimal reader over the digits that `Nat.toDigitsCore`
prepends recovers the encoded number. -/
theorem toDigitsCore_foldl : ∀ (f n : Nat) (ds : List Char) (acc : Nat), n < 10 ^ (f + 1) →
    List.foldl reprVal acc (Nat.toDigitsCore 10 (f + 1) n ds)
      = List.foldl reprVal (acc * 10 ^ (Nat.log 10 n + 1) + n) ds := by
  intro f
  induction f with
  | zero =>
    intro n ds acc hn
    have hn10 : n < 10 := by simpa using hn
    have hdiv : n / 10 = 0 := Nat.div_eq_of_lt hn10
    have hlog : Nat.log 10 n = 0 := by
      rw [Nat.log_eq_zero_iff]
      exact Or.inl hn10
    simp only [Nat.toDigitsCore]
    rw [if_pos hdiv, hlog, List.foldl_cons]
    have hmod : n % 10 = n := Nat.mod_eq_of_lt hn10
    unfold reprVal
    rw [digitChar_toNat_of_lt (n % 10) (Nat.mod_lt _ (by norm_num)), hmod, pow_one]
    congr 1
    omega
  | succ f ih =>
    intro n ds acc hn
    by_cases hdiv : n / 10 = 0
    · have hn10 : n < 10 := (Nat.div_eq_zero_iff (by norm_num)).mp hdiv
      have hlog : Nat.log 10 n = 0 := by
        rw [Nat.log_eq_zero_iff]
        exact Or.inl hn10
      simp only [Nat.toDigitsCore]
      rw [if_pos hdiv, hlog, List.foldl_cons]
      have hmod : n % 10 = n := Nat.mod_eq_of_lt hn10
      unfold reprVal
      rw [digitChar_toNat_of_lt (n % 10) (Nat.mod_lt _ (by norm_num)), hmod, pow_one]
      congr 1
      omega
    · have hn' : n / 10 < 10 ^ (f + 1) := by
        rw [Nat.div_lt_iff_lt_mul (by norm_num)]
        calc n < 10 ^ (f + 1 + 1) := hn
        _ = 10 ^ (f + 1) * 10 := by ring
      have h10 : 10 ≤ n := by
        by_contra hlt
        exact hdiv (Nat.div_eq_of_lt (by omega))
      have hlogpos : 0 < Nat.log 10 n := Nat.log_pos (by norm_num) h10
      have hlogdiv : Nat.log 10 (n / 10) = Nat.log 10 n - 1 := Nat.log_div_base 10 n
      have hstep : Nat.toDigitsCore 10 (f + 1 + 1) n ds
          = Nat.toDigitsCore 10 (f + 1) (n / 10) (Nat.digitChar (n % 10) :: ds) := by
        show (if n / 10 = 0 then Nat.digitChar (n % 10) :: ds
          else Nat.toDigitsCore 10 (f + 1) (n / 10) (Nat.digitChar (n % 10) :: ds)) = _
        rw [if_neg hdiv]
      rw [hstep, ih (n / 10) (Nat.digitChar (n % 10) :: ds) acc hn', List.foldl_cons]
      unfold reprVal
      rw [digitChar_toNat_of_lt (n % 10) (Nat.mod_lt _ (by norm_num)), hlogdiv]
      have hl : Nat.log 10 n - 1 + 1 = Nat.log 10 n := by omega
      rw [hl]
      congr 1
      rw [pow_succ, ← mul_assoc]
      generalize acc * 10 ^ Nat.log 10 n = A
      omega

/-- Reading back the decimal representation recovers the number. -/
theorem foldl_reprVal_toDigits (n : Nat) :
    List.foldl reprVal 0 (Nat.toDigits 10 n) = n := by
  unfold Nat.toDigits
  have hn : n < 10 ^ (n + 1) := by
    calc n < 10 ^ n := Nat.lt_pow_self (by norm_num) n
    _ ≤ 10 ^ (n + 1) := Nat.pow_le_pow_right (by norm_num) (by omega)
  rw [toDigitsCore_foldl n n [] 0 hn]
  simp

/-- `Nat.repr` is injective. -/
theorem natRepr_injective {m n : Nat} (h : Nat.repr m = Nat.repr n) : m = n := by
  have hd : Nat.toDigits 10 m = Nat.toDigits 10 n := by
    unfold Nat.repr List.asString at h
    injection h
  calc m = List.foldl reprVal 0 (Nat.toDigits 10 m) := (foldl_reprVal_toDigits m).symm
  _ = List.foldl reprVal 0 (Nat.toDigits 10 n) := by rw [hd]
  _ = n := foldl_reprVal_toDigits n

/-- `Nat.toDigitsCore` only prepends digit characters. -/
theorem toDigitsCore_isDigit : ∀ (f n : Nat) (ds : List Char),
    (∀ c ∈ ds, c.isDigit = true) → ∀ c ∈ Nat.toDigitsCore 10 f n ds, c.isDigit = true := by
  intro f
  induction f with
  | zero =>
    intro n ds hds
    simpa [Nat.toDigitsCore] using hds
  | succ f ih =>
    intro n ds hds c hc
    have hdig : (Nat.digitChar (n % 10)).isDigit = true :=
      digitChar_isDigit_of_lt _ (Nat.mod_lt _ (by norm_num))
    simp only [Nat.toDigitsCore] at hc
    by_cases hdiv : n / 10 = 0
    · rw [if_pos hdiv] at hc
      rcases List.mem_cons.mp hc with rfl | hc
      · exact hdig
      · exact hds c hc
    · rw [if_neg hdiv] at hc
      refine ih (n / 10) _ ?_ c hc
      intro d hd
      rcases List.mem_cons.mp hd with rfl | hd
      · exact hdig
      · exact hds d hd

/-- Every character of `Nat.repr` is a digit. -/
theorem repr_data_isDigit (n : Nat) : ∀ c ∈ (Nat.repr n).data, c.isDigit = true := by
  intro c hc
  have : c ∈ Nat.toDigitsCore 10 (n + 1) n [] := hc
  exact toDigitsCore_isDigit (n + 1) n [] (by simp) c this

/-- Generated group names with different indices differ. -/
theorem group_name_ne_of_ne {i j : Nat} (h : i ≠ j) :
    ("$group_" ++ Nat.repr i : String) ≠ "$group_" ++ Nat.repr j := by
  intro hc
  apply h
  apply natRepr_injective
  have hdata := congrArg String.data hc
  rw [String.data_append, String.data_append] at hdata
  exact String.ext (List.append_cancel_left hdata)

/-- No generated group name collides with the seven literal hidden names. -/
theorem group_name_not_mem_base (i : Nat) :
    ("$group_" ++ Nat.repr i : String) ∉
      ["distinct_id", "$set", "$set_once", "$groups", "$group_type", "$group_key",
        "$group_set"] := by
  intro hmem
  have hdig := repr_data_isDigit i
  have hlen : ("$group_" : String).data.length = 7 := rfl
  simp only [List.mem_cons, List.not_mem_nil, or_false] at hmem
  rcases hmem with h | h | h | h | h | h | h
  · have h7 := congrArg (fun s => s.data.take 7) h
    simp only [String.data_append, ← hlen, List.take_left] at h7
    exact absurd h7 (by decide)
  · have h7 := congrArg (fun s => s.data.take 7) h
    simp only [String.data_append, ← hlen, List.take_left] at h7
    exact absurd h7 (by decide)
  · have h7 := congrArg (fun s => s.data.take 7) h
    simp only [String.data_append, ← hlen, List.take_left] at h7
    exact absurd h7 (by decide)
  · have h7 := congrArg (fun s => s.data.take 7) h
    simp only [String.data_append, ← hlen, List.take_left] at h7
    exact absurd h7 (by decide)
  · have h7 := congrArg (fun s => s.data.drop 7) h
    simp only [String.data_append, ← hlen, List.drop_left] at h7
    have hmem7 : 't' ∈ (Nat.repr i).data := by
      rw [h7]
      decide
    exact absurd (hdig 't' hmem7) (by decide)
  · have h7 := congrArg (fun s => s.data.drop 7) h
    simp only [String.data_append, ← hlen, List.drop_left] at h7
    have hmem7 : 'k' ∈ (Nat.repr i).data := by
      rw [h7]
      decide
    exact absurd (hdig 'k' hmem7) (by decide)
  · have h7 := congrArg (fun s => s.data.drop 7) h
    simp only [String.data_append, ← hlen, List.drop_left] at h7
    have hmem7 : 's' ∈ (Nat.repr i).data := by
      rw [h7]
      decide
    exact absurd (hdig 's' hmem7) (by decide)

/-- The hidden-property list never repeats a name, whatever the group-types
limit. -/
theorem hiddenPropertyList_nodup (g : Nat) : (hiddenPropertyList g).Nodup := by
  induction g with
  | zero => decide
  | succ g ih =>
    have hsplit : hiddenPropertyList (g + 1)
        = hiddenPropertyList g ++ ["$group_" ++ Nat.repr g] := by
      unfold hiddenPropertyList
      rw [List.range_succ, List.map_append, List.append_assoc]
      rfl
    rw [hsplit, List.nodup_append]
    refine ⟨ih, List.nodup_singleton _, ?_⟩
    intro a ha hb
    simp only [List.mem_singleton] at hb
    subst hb
    unfold hiddenPropertyList at ha
    rw [List.mem_append] at ha
    rcases ha with ha | ha
    · exact group_name_not_mem_base g ha
    · rw [List.mem_map] at ha
      obtain ⟨j, hj, hne⟩ := ha
      rw [List.mem_range] at hj
      exact group_name_ne_of_ne (by omega) hne.symm

/-- Counterexample to C9 as stated: at the modelled `GROUP_TYPES_LIMIT` the
set has 12 distinct names, not `13 + GROUP_TYPES_LIMIT = 18` (the fixed base
list has seven names, not thirteen). -/
theorem C9_counterexample :
    HIDDEN_PROPERTY_DEFINITIONS.dedup.length ≠ 13 + GROUP_TYPES_LIMIT := by decide

/-- C9 as amended: for every group-types limit the hidden-property set
contains exactly `7 + GROUP_TYPES_LIMIT` distinct fixed names. -/
theorem C9_amended_hidden_count (g : Nat) :
    (hiddenPropertyList g).dedup.length = 7 + g := by
  rw [List.Nodup.dedup (hiddenPropertyList_nodup g)]
  unfold hiddenPropertyList
  rw [List.length_append, List.length_map, List.length_range]
  rfl

end Posthog
